import Mathlib

/-
  Verification development for the rn_open_telemetry telemetry service.

  The subject code is src/telemetry-service/src/storage.ts together with the
  OTLP processor that follows it in the same file: the TelemetryStorage class
  (a bounded span store) and the OTLPProcessor class (a decoder from OTLP
  JSON payloads to TelemetrySpan records).

  The embedding models JavaScript runtime values with the inductive JsVal
  (numbers are integers or NaN, which is all this code produces), property
  access that throws on null/undefined receivers with an Except monad, and
  the exact truthiness, coercion and slice semantics the TypeScript source
  relies on.
-/

namespace RNOtel

/-- JavaScript numbers as this service manipulates them: an exact integer or
NaN.  The source only ever produces integer results (nanosecond counts,
parseInt results, millisecond divisions rounded with Math.floor) or NaN, so
non-integer doubles never arise in the quantities the properties below talk
about; exact integers stand in for IEEE doubles, whose precision loss above
2^53 is outside every property considered here. -/
inductive JsNum where
  | int (i : Int)
  | nan
deriving DecidableEq

/-- JavaScript runtime values as this service sees them.  Absent values
(undefined) are represented with Option JsVal at use sites.  The bytes
constructor stands for a Uint8Array, the wire shape of OTLP identifier
fields after protobuf decoding. -/
inductive JsVal where
  | null
  | bool (b : Bool)
  | num (n : JsNum)
  | str (s : String)
  | arr (elems : List JsVal)
  | obj (fields : List (String × JsVal))
  | bytes (bs : List Nat)

/-- JavaScript truthiness: null, false, 0, NaN and the empty string are
falsy; every object (including an empty array or an empty Uint8Array) is
truthy. -/
def jsTruthy : JsVal → Bool
  | .null => false
  | .bool b => b
  | .num (.int i) => decide (i ≠ 0)
  | .num .nan => false
  | .str s => decide (s ≠ "")
  | .arr _ => true
  | .obj _ => true
  | .bytes _ => true

/-- Truthiness of a possibly-undefined value: undefined is falsy. -/
def jsTruthyO : Option JsVal → Bool
  | none => false
  | some v => jsTruthy v

/-- First-occurrence lookup of a property name in an object's field list,
matching JavaScript object semantics where a repeated literal key would have
been collapsed; payload objects decoded from JSON have unique keys and the
first occurrence is the one JavaScript keeps reading. -/
def objLookup (k : String) : List (String × JsVal) → Option JsVal
  | [] => none
  | (k', v) :: rest => if k' = k then some v else objLookup k rest

/-- Property read on a value known not to be null/undefined: objects yield
the named field (or undefined), primitives yield undefined for every
property name this code reads. -/
def getField (v : JsVal) (k : String) : Option JsVal :=
  match v with
  | .obj fs => objLookup k fs
  | _ => none

/-- Property read in the Except monad: reading a property of undefined or
null throws a TypeError, as in JavaScript; any other receiver yields the
field or undefined. -/
def jsGet (v : Option JsVal) (k : String) : Except String (Option JsVal) :=
  match v with
  | none => .error "TypeError: cannot read properties of undefined"
  | some .null => .error "TypeError: cannot read properties of null"
  | some w => .ok (getField w k)

/-- A for-of loop's view of a value: arrays iterate their elements, strings
iterate their characters (as one-character strings), Uint8Array iterates its
bytes as numbers; every other value is not iterable and the loop head throws
a TypeError. -/
def jsIterate (v : JsVal) : Except String (List JsVal) :=
  match v with
  | .arr xs => .ok xs
  | .str s => .ok (s.data.map (fun c => .str (String.mk [c])))
  | .bytes bs => .ok (bs.map (fun b => .num (.int b)))
  | _ => .error "TypeError: value is not iterable"

/-- Iteration of a possibly-undefined value: a for-of over undefined throws. -/
def jsIterateO (v : Option JsVal) : Except String (List JsVal) :=
  match v with
  | none => .error "TypeError: undefined is not iterable"
  | some w => jsIterate w

/-- Decimal digit value of a character, for the parseInt grammar. -/
def digitVal (c : Char) : Option Nat :=
  if c.isDigit then some (c.toNat - 48) else none

/-- Hexadecimal digit value of a character, for the parseInt 0x grammar. -/
def hexDigitVal (c : Char) : Option Nat :=
  if c.isDigit then some (c.toNat - 48)
  else if 'a' ≤ c ∧ c ≤ 'f' then some (c.toNat - 87)
  else if 'A' ≤ c ∧ c ≤ 'F' then some (c.toNat - 55)
  else none

/-- Longest prefix of digit values under the given digit reader. -/
def takeDigits (dv : Char → Option Nat) : List Char → List Nat
  | [] => []
  | c :: cs =>
    match dv c with
    | some d => d :: takeDigits dv cs
    | none => []

/-- Value of a digit list read most-significant first. -/
def digitsToNat (base : Nat) (ds : List Nat) : Nat :=
  ds.foldl (fun a d => a * base + d) 0

/-- Optional sign at the head of the parseInt input: a minus flips the
result's sign, a plus is consumed, anything else is left in place. -/
def stripSign : List Char → Bool × List Char
  | [] => (false, [])
  | c :: t =>
    if c = '-' then (true, t)
    else if c = '+' then (false, t)
    else (false, c :: t)

/-- Optional 0x/0X prefix of the parseInt input: present switches the radix
to 16 and is consumed, otherwise the radix is 10. -/
def stripHexPrefix (cs : List Char) : Nat × List Char :=
  match cs with
  | c0 :: c1 :: t =>
    if c0 = '0' ∧ (c1 = 'x' ∨ c1 = 'X') then (16, t) else (10, c0 :: c1 :: t)
  | _ => (10, cs)

/-- The parseInt grammar on a character list: strip leading whitespace, read
an optional sign, an optional 0x/0X hexadecimal prefix, then the longest
digit prefix; no digits yields NaN.  Exact integers stand in for the float
result, which is exact for every value the properties below exercise. -/
def parseIntChars (cs0 : List Char) : JsNum :=
  let cs1 := cs0.dropWhile Char.isWhitespace
  let sgn := stripSign cs1
  let base := stripHexPrefix sgn.2
  let ds := takeDigits (if base.1 = 16 then hexDigitVal else digitVal) base.2
  if ds.isEmpty then .nan
  else
    let n : Int := digitsToNat base.1 ds
    .int (if sgn.1 then -n else n)

/-- The parseInt grammar on a string. -/
def parseIntStr (s : String) : JsNum :=
  parseIntChars s.data

mutual

/-- String coercion of a value, as JavaScript's String() produces it for the
shapes this service can feed it: integers print in decimal, NaN prints as
NaN, arrays join their elements with commas (null elements joining as the
empty string), plain objects print as [object Object]. -/
def jsToString : JsVal → String
  | .null => "null"
  | .bool b => if b then "true" else "false"
  | .num (.int i) => toString i
  | .num .nan => "NaN"
  | .str s => s
  | .arr xs => jsToStringList xs
  | .obj _ => "[object Object]"
  | .bytes bs => jsToStringBytes bs

/-- Comma join of array elements under String(), where a null element
contributes the empty string. -/
def jsToStringList : List JsVal → String
  | [] => ""
  | x :: xs =>
    let hd : String :=
      match x with
      | JsVal.null => ""
      | v => jsToString v
    match xs with
    | [] => hd
    | _ => hd ++ "," ++ jsToStringList xs

/-- Comma join of the bytes of a Uint8Array under String(). -/
def jsToStringBytes : List Nat → String
  | [] => ""
  | b :: bs =>
    match bs with
    | [] => toString b
    | _ => toString b ++ "," ++ jsToStringBytes bs

end

/-- The parseInt call as the source uses it on attribute intValue fields:
JavaScript first coerces the argument to a string, then applies the parseInt
grammar. -/
def jsParseInt (v : JsVal) : JsNum :=
  parseIntStr (jsToString v)

/-- JSON string escaping: quote, backslash and control characters are
escaped, everything else passes through. -/
def jsonEscapeChar (c : Char) : String :=
  if c = '"' then "\\\""
  else if c = '\\' then "\\\\"
  else if c = '\n' then "\\n"
  else if c = '\r' then "\\r"
  else if c = '\t' then "\\t"
  else if c = '\x08' then "\\b"
  else if c = '\x0c' then "\\f"
  else if c.toNat < 32 then
    "\\u00" ++ String.mk (Nat.toDigits 16 (c.toNat / 16)) ++
      String.mk (Nat.toDigits 16 (c.toNat % 16))
  else String.mk [c]

/-- A JSON string literal for the given text. -/
def jsonQuote (s : String) : String :=
  "\"" ++ String.join (s.data.map jsonEscapeChar) ++ "\""

mutual

/-- The JSON.stringify rendering of a value, for the shapes this service can
feed it: NaN serializes as null, a Uint8Array serializes as an index-keyed
object, objects and arrays serialize recursively. -/
def jsonStringify : JsVal → String
  | .null => "null"
  | .bool b => if b then "true" else "false"
  | .num (.int i) => toString i
  | .num .nan => "null"
  | .str s => jsonQuote s
  | .arr xs => "[" ++ jsonStringifyList xs ++ "]"
  | .obj fs => "\x7b" ++ jsonStringifyFields fs ++ "\x7d"
  | .bytes bs => "\x7b" ++ jsonStringifyByteFields 0 bs ++ "\x7d"

/-- Comma-joined JSON renderings of array elements. -/
def jsonStringifyList : List JsVal → String
  | [] => ""
  | x :: xs =>
    match xs with
    | [] => jsonStringify x
    | _ => jsonStringify x ++ "," ++ jsonStringifyList xs

/-- Comma-joined JSON renderings of object fields. -/
def jsonStringifyFields : List (String × JsVal) → String
  | [] => ""
  | (k, v) :: fs =>
    match fs with
    | [] => jsonQuote k ++ ":" ++ jsonStringify v
    | _ => jsonQuote k ++ ":" ++ jsonStringify v ++ "," ++ jsonStringifyFields fs

/-- Index-keyed JSON rendering of a Uint8Array's bytes. -/
def jsonStringifyByteFields (i : Nat) : List Nat → String
  | [] => ""
  | b :: bs =>
    match bs with
    | [] => jsonQuote (toString i) ++ ":" ++ toString b
    | _ => jsonQuote (toString i) ++ ":" ++ toString b ++ "," ++
        jsonStringifyByteFields (i + 1) bs

end

/-- Hexadecimal rendering of a nonnegative integer with lowercase digits, as
Number.prototype.toString(16) produces for the byte values this code feeds
it. -/
def jsNatToHex (n : Nat) : String :=
  String.mk (Nat.toDigits 16 n)

/-- The padStart(2, zero) call used on each hex-rendered byte. -/
def padStart2 (s : String) : String :=
  if s.length ≥ 2 then s else String.mk (List.replicate (2 - s.length) '0') ++ s

/-- One byte rendered as two lowercase hex digits, as the source's
map over Array.from(bytes) does. -/
def byteToHexPad (b : Nat) : String :=
  padStart2 (jsNatToHex b)

/-- Strict (triple-equals) comparison as the store performs it.  NaN
compares unequal to everything, itself included.  Composite values compare
by reference in JavaScript; every comparison the store performs pits a span
field against a caller-supplied string, for which the primitive cases below
are exact, and two composites reached through distinct expressions compare
unequal. -/
def jsStrictEq : JsVal → JsVal → Bool
  | .str a, .str b => a = b
  | .num (.int a), .num (.int b) => a = b
  | .bool a, .bool b => a = b
  | .null, .null => true
  | _, _ => false

/-- SameValueZero, the equality used by Set and Map keys: like strict
equality except NaN matches NaN. -/
def jsSameValueZero : JsVal → JsVal → Bool
  | .num .nan, .num .nan => true
  | a, b => jsStrictEq a b

/-- One span event as the decoder stores it: name (a value, defaulted when
falsy), a millisecond timestamp, and decoded attributes. -/
structure SpanEvent where
  name : JsVal
  timestamp : JsNum
  attributes : List (String × JsVal)

/-- The TelemetrySpan record of storage.ts.  Fields that the decoder can
only ever fill with a string are String; operationName and serviceName come
from wire values guarded only by truthiness, so they stay JsVal; the
attribute map is an insertion-ordered association list with unique keys, the
shape of a JavaScript object built by indexed assignment. -/
structure TelemetrySpan where
  traceId : String
  spanId : String
  parentSpanId : Option String
  operationName : JsVal
  startTime : JsNum
  endTime : JsNum
  duration : JsNum
  status : String
  attributes : List (String × JsVal)
  events : List SpanEvent
  serviceName : JsVal
  timestamp : String

/-- The TelemetryStats record of storage.ts.  The nested timeRange object is
flattened into its two fields; topOperations pairs each operation name with
its count. -/
structure TelemetryStats where
  totalSpans : Nat
  uniqueServices : Nat
  uniqueOperations : Nat
  timeRangeEarliest : Option String
  timeRangeLatest : Option String
  topOperations : List (JsVal × Nat)
  errorCount : Nat
  successCount : Nat

/-- The TelemetryStorage state: the held span array and the capacity bound.
The source hard-codes maxSpans to 10000 at construction; keeping it as a
field lets the degenerate configurations the specification discusses be
stated. -/
structure TelemetryStorage where
  spans : List TelemetrySpan
  maxSpans : Nat

/-- A TelemetryStorage as the constructor builds it: empty, maxSpans 10000. -/
def mkTelemetryStorage : TelemetryStorage :=
  { spans := [], maxSpans := 10000 }

/-- The Array.prototype.slice(-n) call used for eviction, for a nonnegative
n passed as its negation.  For n greater than zero it keeps the last n
elements (all of them when fewer are held); for n = 0 the argument is -0,
which slice treats as 0, so the WHOLE array is kept, not an empty one. -/
def jsSliceFromEnd (n : Nat) (l : List α) : List α :=
  if n = 0 then l else l.drop (l.length - n)

namespace TelemetryStorage

/-- TelemetryStorage.addSpan: push the span, then if the count exceeds
maxSpans reassign the array to its slice(-maxSpans). -/
def addSpan (st : TelemetryStorage) (span : TelemetrySpan) : TelemetryStorage :=
  let pushed := st.spans ++ [span]
  if pushed.length > st.maxSpans then
    { st with spans := jsSliceFromEnd st.maxSpans pushed }
  else
    { st with spans := pushed }

/-- Appending a whole sequence of spans in order, one addSpan each. -/
def addAll (st : TelemetryStorage) (l : List TelemetrySpan) : TelemetryStorage :=
  l.foldl addSpan st

/-- TelemetryStorage.getAllSpans: a spread copy of the array, reversed, so
most recent first. -/
def getAllSpans (st : TelemetryStorage) : List TelemetrySpan :=
  st.spans.reverse

/-- TelemetryStorage.getSpansByService: filter on strict equality of
serviceName, preserving stored order. -/
def getSpansByService (st : TelemetryStorage) (serviceName : String) : List TelemetrySpan :=
  st.spans.filter (fun s => jsStrictEq s.serviceName (.str serviceName))

/-- TelemetryStorage.getSpansByOperation: filter on strict equality of
operationName, preserving stored order. -/
def getSpansByOperation (st : TelemetryStorage) (operationName : String) : List TelemetrySpan :=
  st.spans.filter (fun s => jsStrictEq s.operationName (.str operationName))

/-- TelemetryStorage.getTotalSpans: the held count. -/
def getTotalSpans (st : TelemetryStorage) : Nat :=
  st.spans.length

/-- TelemetryStorage.getRecentSpans: slice(-limit) of the array, reversed.
The source defaults limit to 50 when the caller passes nothing. -/
def getRecentSpans (st : TelemetryStorage) (limit : Nat) : List TelemetrySpan :=
  (jsSliceFromEnd limit st.spans).reverse

/-- TelemetryStorage.clear: drop everything. -/
def clear (st : TelemetryStorage) : TelemetryStorage :=
  { st with spans := [] }

end TelemetryStorage

/-- Set-style accumulation: append the element unless an equal one was
already seen. -/
def insertIfNew (eq : α → α → Bool) (seen : List α) (x : α) : List α :=
  if seen.any (fun y => eq y x) then seen else seen ++ [x]

/-- Size of a Set built from the list under the given equality. -/
def distinctCount (eq : α → α → Bool) (l : List α) : Nat :=
  (l.foldl (insertIfNew eq) []).length

/-- Map.set(key, get(key) + 1) on an insertion-ordered association list: the
first occurrence keeps its position and key object, counts accumulate, a new
key appends. -/
def bumpCount (eq : α → α → Bool) (x : α) : List (α × Nat) → List (α × Nat)
  | [] => [(x, 1)]
  | (y, c) :: rest =>
    if eq y x then (y, c + 1) :: rest else (y, c) :: bumpCount eq x rest

/-- Stable insertion step for the descending-by-count sort: an element goes
before the first strictly-smaller-or-equal entry that it preceded
originally, matching the stable Array.prototype.sort with comparator
b.count - a.count. -/
def insertByCountDesc (x : α × Nat) : List (α × Nat) → List (α × Nat)
  | [] => [x]
  | y :: ys => if x.2 ≥ y.2 then x :: y :: ys else y :: insertByCountDesc x ys

/-- Stable descending-by-count sort. -/
def sortByCountDesc (l : List (α × Nat)) : List (α × Nat) :=
  l.foldr insertByCountDesc []

/-- Insertion step for the default lexicographic string sort. -/
def insertStrAsc (s : String) : List String → List String
  | [] => [s]
  | t :: ts => if s ≤ t then s :: t :: ts else t :: insertStrAsc s ts

/-- The default Array.prototype.sort on strings: lexicographic ascending.
The stored timestamps are ASCII ISO-8601 strings, on which code-unit order
and the Lean string order coincide. -/
def sortStrings (l : List String) : List String :=
  l.foldr insertStrAsc []

/-- The `x \|\| null` pattern applied to a possibly-missing string: both a
missing entry and an empty (falsy) string become null. -/
def jsOrNullStr : Option String → Option String
  | some s => if s = "" then none else some s
  | none => none

namespace TelemetryStorage

/-- TelemetryStorage.getStats: the empty store returns the all-zero record;
otherwise one pass counts operations and error/success statuses (a status
counts as an error exactly when it is the literal string ERROR or the
literal string error), a Set counts distinct services, the operation counts
are stably sorted descending and truncated to 10, and the time range is the
lexicographic extremes of the timestamp strings. -/
def getStats (st : TelemetryStorage) : TelemetryStats :=
  if st.spans.isEmpty then
    { totalSpans := 0, uniqueServices := 0, uniqueOperations := 0,
      timeRangeEarliest := none, timeRangeLatest := none,
      topOperations := [], errorCount := 0, successCount := 0 }
  else
    let counts := st.spans.foldl
      (fun (p : Nat × Nat) s =>
        if s.status = "ERROR" ∨ s.status = "error" then (p.1 + 1, p.2)
        else (p.1, p.2 + 1))
      (0, 0)
    let operations := st.spans.foldl
      (fun m s => bumpCount jsSameValueZero s.operationName m) []
    let timestamps := sortStrings (st.spans.map (fun s => s.timestamp))
    { totalSpans := st.spans.length
      uniqueServices :=
        distinctCount jsSameValueZero (st.spans.map (fun s => s.serviceName))
      uniqueOperations := operations.length
      timeRangeEarliest := jsOrNullStr timestamps.head?
      timeRangeLatest := jsOrNullStr timestamps.getLast?
      topOperations := (sortByCountDesc operations).take 10
      errorCount := counts.1
      successCount := counts.2 }

end TelemetryStorage

namespace TelemetryStorage

/-
  State-transformer renderings of the TelemetryStorage methods.  Each method
  is a function from the receiver state to a result paired with the state
  after the call.  Every in-place mutation the JavaScript body performs is
  reflected in the returned state: push and the slice reassignment in
  addSpan, and the reassignment in clear, update this.spans; the read
  methods call reverse() and sort() only on fresh arrays produced by a
  spread, slice, filter or map, so their bodies leave this.spans untouched
  and the returned state is the receiver.
-/

/-- addSpan as a state transformer: push mutates the array in place and the
eviction branch reassigns this.spans, so the state is updated. -/
def addSpanM (st : TelemetryStorage) (span : TelemetrySpan) :
    Unit × TelemetryStorage :=
  ((), st.addSpan span)

/-- clear as a state transformer: this.spans is reassigned to a fresh empty
array. -/
def clearM (st : TelemetryStorage) : Unit × TelemetryStorage :=
  ((), st.clear)

/-- getAllSpans as a state transformer: the spread builds a fresh copy and
reverse() mutates only that copy. -/
def getAllSpansM (st : TelemetryStorage) :
    List TelemetrySpan × TelemetryStorage :=
  let copy := st.spans
  (copy.reverse, st)

/-- getRecentSpans as a state transformer: slice returns a fresh array and
reverse() mutates only it. -/
def getRecentSpansM (st : TelemetryStorage) (limit : Nat) :
    List TelemetrySpan × TelemetryStorage :=
  let sliced := jsSliceFromEnd limit st.spans
  (sliced.reverse, st)

/-- getSpansByService as a state transformer: filter returns a fresh array. -/
def getSpansByServiceM (st : TelemetryStorage) (serviceName : String) :
    List TelemetrySpan × TelemetryStorage :=
  (st.getSpansByService serviceName, st)

/-- getSpansByOperation as a state transformer: filter returns a fresh
array. -/
def getSpansByOperationM (st : TelemetryStorage) (operationName : String) :
    List TelemetrySpan × TelemetryStorage :=
  (st.getSpansByOperation operationName, st)

/-- getTotalSpans as a state transformer: a length read. -/
def getTotalSpansM (st : TelemetryStorage) : Nat × TelemetryStorage :=
  (st.getTotalSpans, st)

/-- getStats as a state transformer: the single pass reads this.spans, the
sort() calls mutate only the arrays fresh from map and Array.from. -/
def getStatsM (st : TelemetryStorage) : TelemetryStats × TelemetryStorage :=
  (st.getStats, st)

end TelemetryStorage

/-- The `value \|\| default` pattern on a possibly-undefined value. -/
def jsOr (v : Option JsVal) (d : JsVal) : JsVal :=
  match v with
  | some w => if jsTruthy w then w else d
  | none => d

/-- Math.floor of a number divided by 1,000,000: floor division on an
integer (Int.fdiv is the floor), NaN propagates. -/
def floorDivMillion : JsNum → JsNum
  | .int i => .int (Int.fdiv i 1000000)
  | .nan => .nan

/-- Subtraction on JavaScript numbers: NaN propagates. -/
def jsSub : JsNum → JsNum → JsNum
  | .int a, .int b => .int (a - b)
  | _, _ => .nan

/-- Two-digit zero padding for date components. -/
def pad2 (n : Nat) : String :=
  if n < 10 then "0" ++ toString n else toString n

/-- Three-digit zero padding for the millisecond component. -/
def pad3 (n : Nat) : String :=
  if n < 10 then "00" ++ toString n
  else if n < 100 then "0" ++ toString n
  else toString n

/-- Four-digit zero padding for the year component; years outside 0..9999
render with a sign and no truncation, enough for a total definition (the
properties below never inspect them). -/
def pad4 (y : Int) : String :=
  if y < 0 then "-" ++ toString (-y)
  else if y < 10 then "000" ++ toString y
  else if y < 100 then "00" ++ toString y
  else if y < 1000 then "0" ++ toString y
  else toString y

/-- UTC ISO-8601 rendering of an epoch millisecond count, the value
new Date(ms).toISOString() produces for in-range ms: the day count is
converted with the standard civil-from-days algorithm and the time of day
is read off the remainder. -/
def isoOfMillis (ms : Int) : String :=
  let s := Int.fdiv ms 1000
  let msRem := (Int.emod ms 1000).toNat
  let days := Int.fdiv s 86400
  let sod := (Int.emod s 86400).toNat
  let hh := sod / 3600
  let mm := (sod % 3600) / 60
  let ss := sod % 60
  let z := days + 719468
  let era := Int.fdiv z 146097
  let doe := (z - era * 146097).toNat
  let yoe := (doe - doe / 1460 + doe / 36524 - doe / 146096) / 365
  let doy := doe - (365 * yoe + yoe / 4 - yoe / 100)
  let mp := (5 * doy + 2) / 153
  let d := doy - (153 * mp + 2) / 5 + 1
  let m := if mp < 10 then mp + 3 else mp - 9
  let y : Int := era * 400 + (yoe : Int) + (if m ≤ 2 then 1 else 0)
  pad4 y ++ "-" ++ pad2 m ++ "-" ++ pad2 d ++ "T" ++
    pad2 hh ++ ":" ++ pad2 mm ++ ":" ++ pad2 ss ++ "." ++ pad3 msRem ++ "Z"

namespace OTLPProcessor

/-- OTLPProcessor.nanosToMillis: a string argument goes through parseInt,
anything else is coerced to a number; either way the result is divided by
1,000,000 and floored.  An absent value coerces to NaN (undefined), null to
0, booleans to 0/1; composite values coerce through their string form in
JavaScript and never occur in timestamp position, so they are modelled as
NaN. -/
def nanosToMillis (nanos : Option JsVal) : JsNum :=
  match nanos with
  | some (.str s) => floorDivMillion (parseIntStr s)
  | some (.num n) => floorDivMillion n
  | some .null => floorDivMillion (.int 0)
  | some (.bool b) => floorDivMillion (.int (if b then 1 else 0))
  | _ => .nan

/-- OTLPProcessor.bytesToHex: a string passes through unchanged; a falsy or
empty value yields the empty string; a byte array maps each byte to its
zero-padded lowercase hex pair and joins with no separator.  The declared
parameter type is Uint8Array or string; a value of any other shape reaches
Array.from, which yields an empty array for the non-iterables among them,
hence the empty string. -/
def bytesToHex (bytes : Option JsVal) : String :=
  match bytes with
  | some (.str s) => s
  | some (.bytes bs) =>
    if bs.length = 0 then "" else String.join (bs.map byteToHexPad)
  | _ => ""

/-- OTLPProcessor.extractStatus: a falsy status object yields OK; otherwise
the numeric code field selects UNSET/OK/ERROR for 0/1/2 and anything else,
including an absent or non-numeric code, yields UNKNOWN. -/
def extractStatus (status : Option JsVal) : String :=
  match status with
  | none => "OK"
  | some v =>
    if ¬ jsTruthy v then "OK"
    else
      match getField v "code" with
      | some (.num (.int 0)) => "UNSET"
      | some (.num (.int 1)) => "OK"
      | some (.num (.int 2)) => "ERROR"
      | _ => "UNKNOWN"

/-- Decode of one attribute value union object, in the source's first-match
order: a present stringValue field (even null) passes through; else a
present intValue goes through parseInt; else a present doubleValue passes
through; else a present boolValue passes through; else the whole value
object is serialized to JSON text and stored as a string. -/
def decodeAttrValue (value : JsVal) : JsVal :=
  match getField value "stringValue" with
  | some sv => sv
  | none =>
    match getField value "intValue" with
    | some iv => .num (jsParseInt iv)
    | none =>
      match getField value "doubleValue" with
      | some dv => dv
      | none =>
        match getField value "boolValue" with
        | some bv => bv
        | none => .str (jsonStringify value)

/-- Indexed assignment result[k] = v on a JavaScript object: an existing key
keeps its position and takes the new value, a new key appends. -/
def jsObjSet (fs : List (String × JsVal)) (k : String) (v : JsVal) :
    List (String × JsVal) :=
  match fs with
  | [] => [(k, v)]
  | (k', v') :: rest =>
    if k' = k then (k, v) :: rest else (k', v') :: jsObjSet rest k v

/-- The attribute loop body of OTLPProcessor.extractAttributes: an entry
with a falsy key or falsy value is skipped, otherwise the decoded value is
assigned under the key (coerced to a string).  Reading .key of a null entry
throws. -/
def extractAttrLoop (acc : List (String × JsVal)) :
    List JsVal → Except String (List (String × JsVal))
  | [] => .ok acc
  | attr :: rest =>
    match jsGet (some attr) "key" with
    | .error e => .error e
    | .ok keyV =>
      match keyV with
      | some kv =>
        if jsTruthy kv then
          match jsGet (some attr) "value" with
          | .error e => .error e
          | .ok valueV =>
            match valueV with
            | some v =>
              if jsTruthy v then
                extractAttrLoop (jsObjSet acc (jsToString kv) (decodeAttrValue v)) rest
              else
                extractAttrLoop acc rest
            | none => extractAttrLoop acc rest
        else
          extractAttrLoop acc rest
      | none => extractAttrLoop acc rest

/-- OTLPProcessor.extractAttributes: a falsy attribute list yields the empty
object; a truthy one is iterated with the loop above (a truthy non-iterable
throws at the loop head). -/
def extractAttributes (attributes : Option JsVal) :
    Except String (List (String × JsVal)) :=
  if ¬ jsTruthyO attributes then .ok []
  else
    match jsIterateO attributes with
    | .error e => .error e
    | .ok items => extractAttrLoop [] items

/-- The per-event body of OTLPProcessor.extractEvents. -/
def convertEvent (ev : JsVal) : Except String SpanEvent :=
  match jsGet (some ev) "name" with
  | .error e => .error e
  | .ok nameV =>
    match jsGet (some ev) "timeUnixNano" with
    | .error e => .error e
    | .ok timeV =>
      match jsGet (some ev) "attributes" with
      | .error e => .error e
      | .ok attrsV =>
        match extractAttributes attrsV with
        | .error e => .error e
        | .ok attrs =>
          .ok { name := jsOr nameV (.str "unknown-event")
                timestamp := nanosToMillis timeV
                attributes := attrs }

/-- OTLPProcessor.extractEvents: a falsy events value yields the empty list;
an array maps each event through convertEvent; a truthy non-array has no
map method and throws. -/
def convertEventList : List JsVal → Except String (List SpanEvent)
  | [] => .ok []
  | ev :: rest =>
    match convertEvent ev with
    | .error e => .error e
    | .ok t =>
      match convertEventList rest with
      | .error e => .error e
      | .ok ts => .ok (t :: ts)

/-- OTLPProcessor.extractEvents: a falsy events value yields the empty list;
an array maps each event through convertEvent in order, stopping at the
first throw; a truthy non-array has no map method and throws. -/
def extractEvents (events : Option JsVal) : Except String (List SpanEvent) :=
  if ¬ jsTruthyO events then .ok []
  else
    match events with
    | some (.arr xs) => convertEventList xs
    | _ => .error "TypeError: events.map is not a function"

/-- The scan loop of OTLPProcessor.extractServiceName: the first attribute
whose key is strictly equal to the string service.name returns its value's
stringValue when that is truthy and the string unknown-service otherwise;
optional chaining makes a null or undefined value object yield undefined. -/
def findServiceName : List JsVal → Except String JsVal
  | [] => .ok (.str "unknown-service")
  | attr :: rest =>
    match jsGet (some attr) "key" with
    | .error e => .error e
    | .ok keyV =>
      match keyV with
      | some (.str k) =>
        if k = "service.name" then
          match jsGet (some attr) "value" with
          | .error e => .error e
          | .ok valueV =>
            .ok (jsOr
              (match valueV with
                | none => none
                | some .null => none
                | some v => getField v "stringValue")
              (.str "unknown-service"))
        else
          findServiceName rest
      | _ => findServiceName rest

/-- OTLPProcessor.extractServiceName: a falsy resource or a falsy
resource.attributes yields unknown-service; otherwise the attribute list is
scanned with findServiceName. -/
def extractServiceName (resource : Option JsVal) : Except String JsVal :=
  if ¬ jsTruthyO resource then .ok (.str "unknown-service")
  else
    match jsGet resource "attributes" with
    | .error e => .error e
    | .ok attrsV =>
      if ¬ jsTruthyO attrsV then .ok (.str "unknown-service")
      else
        match jsIterateO attrsV with
        | .error e => .error e
        | .ok items => findServiceName items

/-- Number of millisecond values accepted by a JavaScript Date: at most
8.64e15 in magnitude; beyond that, and on NaN, toISOString throws. -/
def maxDateMillis : Nat := 8640000000000000

/-- The new Date(ms).toISOString() call of convertSpan: NaN or an
out-of-range milliseconds value is an Invalid Date whose toISOString throws
a RangeError; otherwise the UTC ISO-8601 rendering is produced via the
civil-from-days calendar algorithm. -/
def dateToISO (t : JsNum) : Except String String :=
  match t with
  | .nan => .error "RangeError: Invalid time value"
  | .int ms =>
    if ms.natAbs > maxDateMillis then .error "RangeError: Invalid time value"
    else .ok (isoOfMillis ms)

/-- OTLPProcessor.convertSpan: each field of the raw span is read (throwing
if the span itself is null), the timestamps are converted and the record is
assembled; extractAttributes and extractEvents can throw on truthy
non-iterable fields, and the trailing toISOString throws when startTime is
NaN. -/
def convertSpan (span : JsVal) (serviceName : JsVal) :
    Except String TelemetrySpan :=
  match jsGet (some span) "startTimeUnixNano" with
  | .error e => .error e
  | .ok startNanoV =>
    match jsGet (some span) "endTimeUnixNano" with
    | .error e => .error e
    | .ok endNanoV =>
      match jsGet (some span) "traceId" with
      | .error e => .error e
      | .ok traceIdV =>
        match jsGet (some span) "spanId" with
        | .error e => .error e
        | .ok spanIdV =>
          match jsGet (some span) "parentSpanId" with
          | .error e => .error e
          | .ok parentV =>
            match jsGet (some span) "name" with
            | .error e => .error e
            | .ok nameV =>
              match jsGet (some span) "status" with
              | .error e => .error e
              | .ok statusV =>
                match jsGet (some span) "attributes" with
                | .error e => .error e
                | .ok attrsV =>
                  match extractAttributes attrsV with
                  | .error e => .error e
                  | .ok attrs =>
                    match jsGet (some span) "events" with
                    | .error e => .error e
                    | .ok eventsV =>
                      match extractEvents eventsV with
                      | .error e => .error e
                      | .ok events =>
                        match dateToISO (nanosToMillis startNanoV) with
                        | .error e => .error e
                        | .ok ts =>
                          .ok { traceId := bytesToHex traceIdV
                                spanId := bytesToHex spanIdV
                                parentSpanId :=
                                  if jsTruthyO parentV then
                                    some (bytesToHex parentV)
                                  else none
                                operationName := jsOr nameV (.str "unknown-operation")
                                startTime := nanosToMillis startNanoV
                                endTime := nanosToMillis endNanoV
                                duration :=
                                  jsSub (nanosToMillis endNanoV) (nanosToMillis startNanoV)
                                status := extractStatus statusV
                                attributes := attrs
                                events := events
                                serviceName := serviceName
                                timestamp := ts }

/-- The innermost loop of processTraces: convert each raw span in order,
stopping at the first throw; spans produced before the throw were already
appended to the store (no rollback), so they are kept alongside the error. -/
def processSpanList (serviceName : JsVal) :
    List JsVal → List TelemetrySpan × Option String
  | [] => ([], none)
  | s :: rest =>
    match convertSpan s serviceName with
    | .error e => ([], some e)
    | .ok t =>
      let r := processSpanList serviceName rest
      (t :: r.1, r.2)

/-- The scope-span loop of processTraces: a group with a falsy spans field
is skipped with a warning; otherwise its spans are iterated (throwing on a
truthy non-iterable). -/
def processScopeList (serviceName : JsVal) :
    List JsVal → List TelemetrySpan × Option String
  | [] => ([], none)
  | sc :: rest =>
    match jsGet (some sc) "spans" with
    | .error e => ([], some e)
    | .ok spansV =>
      if ¬ jsTruthyO spansV then processScopeList serviceName rest
      else
        match jsIterateO spansV with
        | .error e => ([], some e)
        | .ok items =>
          let r1 := processSpanList serviceName items
          match r1.2 with
          | some e => (r1.1, some e)
          | none =>
            let r2 := processScopeList serviceName rest
            (r1.1 ++ r2.1, r2.2)

/-- The resource-span loop of processTraces: the group's serviceName is
resolved first, then a group with a falsy scopeSpans field is skipped with a
warning; otherwise its scope spans are iterated. -/
def processGroupList : List JsVal → List TelemetrySpan × Option String
  | [] => ([], none)
  | g :: rest =>
    match jsGet (some g) "resource" with
    | .error e => ([], some e)
    | .ok resourceV =>
      match extractServiceName resourceV with
      | .error e => ([], some e)
      | .ok serviceName =>
        match jsGet (some g) "scopeSpans" with
        | .error e => ([], some e)
        | .ok scopeV =>
          if ¬ jsTruthyO scopeV then processGroupList rest
          else
            match jsIterateO scopeV with
            | .error e => ([], some e)
            | .ok scopes =>
              let r1 := processScopeList serviceName scopes
              match r1.2 with
              | some e => (r1.1, some e)
              | none =>
                let r2 := processGroupList rest
                (r1.1 ++ r2.1, r2.2)

/-- OTLPProcessor.processTraces: a falsy payload or a falsy resourceSpans
field is a warned no-op producing no spans and no error; otherwise the
nested traversal produces the converted spans in order, together with the
first exception if one was thrown (which the method rethrows after
logging). -/
def processTraces (data : JsVal) : List TelemetrySpan × Option String :=
  if ¬ jsTruthy data then ([], none)
  else
    let rsV := getField data "resourceSpans"
    if ¬ jsTruthyO rsV then ([], none)
    else
      match jsIterateO rsV with
      | .error e => ([], some e)
      | .ok groups => processGroupList groups

end OTLPProcessor

/-
  Reference definitions written from the specification's wording, used on
  the right-hand side of the refinement statements below, and concrete
  fixtures used by the counterexamples and witnesses.
-/

/-- The decimal digit character with value d. -/
def decDigitChar (d : Nat) : Char :=
  Char.ofNat (48 + d)

/-- The lowercase hexadecimal digit character with value n. -/
def hexDigitChar (n : Nat) : Char :=
  Char.ofNat (if n < 10 then 48 + n else 87 + n)

/-- Specification reading of one byte's rendering: lowercase hex,
zero-padded to exactly two digits. -/
def hexPairSpec (b : Nat) : String :=
  String.mk [hexDigitChar (b / 16), hexDigitChar (b % 16)]

/-- Specification reading of a byte sequence's rendering: the two-digit
pairs concatenated with no separator. -/
def hexConcatSpec (bs : List Nat) : String :=
  String.join (bs.map hexPairSpec)

/-- Specification reading of the attribute value union decode: the value
comes from exactly the first present field in the order stringValue,
intValue (through parseInt), doubleValue, boolValue; when none of the four
is present the whole value object's JSON text is stored as a string. -/
def decodeAttrValueSpec (v : JsVal) : JsVal :=
  match ["stringValue", "intValue", "doubleValue", "boolValue"].findSome?
      (fun f => (getField v f).map (fun w => (f, w))) with
  | some (f, w) => if f = "intValue" then .num (jsParseInt w) else w
  | none => .str (jsonStringify v)

/-- Specification reading of one attribute entry: entries whose key or value
is absent or falsy are skipped, a kept entry contributes its key (as a
string) and its decoded value. -/
def decodeAttrEntrySpec (attr : JsVal) : Option (String × JsVal) :=
  match getField attr "key", getField attr "value" with
  | some kv, some v =>
    if jsTruthy kv ∧ jsTruthy v then some (jsToString kv, decodeAttrValueSpec v)
    else none
  | _, _ => none

/-- Specification reading of the decoded attribute mapping at one key: the
value of the last kept entry bearing that key, if any (last write wins). -/
def lastWriteSpec (attrs : List JsVal) (k : String) : Option JsVal :=
  (((attrs.filterMap decodeAttrEntrySpec).filter (fun e => e.1 = k)).getLast?).map
    Prod.snd

/-- Whether an attribute entry's key field is literally the string
service.name. -/
def isServiceNameAttr (a : JsVal) : Bool :=
  match getField a "key" with
  | some (.str k) => k = "service.name"
  | _ => false

/-- Specification reading of service-name resolution over a resource's
attribute list: the first entry keyed service.name supplies its value's
stringValue when that is truthy, and unknown-service otherwise (also when no
such entry exists). -/
def serviceNameSpec (attrs : List JsVal) : JsVal :=
  match attrs.find? isServiceNameAttr with
  | none => .str "unknown-service"
  | some a =>
    let sv : Option JsVal :=
      match getField a "value" with
      | none => none
      | some .null => none
      | some v => getField v "stringValue"
    jsOr sv (.str "unknown-service")

/-- A minimal concrete span record for store-level fixtures. -/
def sampleSpan : TelemetrySpan :=
  { traceId := "", spanId := "", parentSpanId := none,
    operationName := JsVal.str "op", startTime := .int 0, endTime := .int 0,
    duration := .int 0, status := "OK", attributes := [], events := [],
    serviceName := JsVal.str "svc",
    timestamp := "1970-01-01T00:00:00.000Z" }

/-- The sample span with a chosen status string. -/
def spanWithStatus (s : String) : TelemetrySpan :=
  { sampleSpan with status := s }

/-- A raw span whose timestamps are present and zero and whose parentSpanId
field carries the given value (or is absent), isolating the parent-id
decode. -/
def parentProbeSpan (pv : Option JsVal) : JsVal :=
  .obj ([("startTimeUnixNano", JsVal.num (.int 0)),
         ("endTimeUnixNano", JsVal.num (.int 0))] ++
    (match pv with
     | some v => [("parentSpanId", v)]
     | none => []))

/-- The parentSpanId that convertSpan decodes for the probe span above. -/
def decodedParent (pv : Option JsVal) : Option (Option String) :=
  (OTLPProcessor.convertSpan (parentProbeSpan pv) (.str "probe-service")).toOption.map
    (fun t => t.parentSpanId)

/-- A resource whose service.name attribute carries the empty string. -/
def c8Resource : JsVal :=
  .obj [("attributes", .arr [.obj
    [("key", .str "service.name"),
     ("value", .obj [("stringValue", .str "")])]])]

/-- A well-formed payload whose single raw span is the empty object. -/
def emptySpanPayload : JsVal :=
  .obj [("resourceSpans", .arr [.obj
    [("scopeSpans", .arr [.obj [("spans", .arr [.obj []])]])]])]

/-- The store after appending spans with statuses OK, ERROR, error, OK. -/
def statusExampleStorage : TelemetryStorage :=
  TelemetryStorage.addAll mkTelemetryStorage
    [spanWithStatus "OK", spanWithStatus "ERROR",
     spanWithStatus "error", spanWithStatus "OK"]

/-- A store holding one span whose status is the mixed-case string Error. -/
def mixedCaseStorage : TelemetryStorage :=
  { spans := [spanWithStatus "Error"], maxSpans := 10000 }

/-- ASCII lowering of one character, for the case-insensitive reading of the
status match. -/
def lowerChar (c : Char) : Char :=
  if 'A' ≤ c ∧ c ≤ 'Z' then Char.ofNat (c.toNat + 32) else c

/-- Whether a status string matches ERROR case-insensitively, the reading
the specification gives for the error tally. -/
def matchesErrorCI (s : String) : Bool :=
  s.data.map lowerChar = "error".data

/-- An attribute list with an intValue entry, a boolValue entry and a
repeated key, exercising first-match decoding and last-write-wins. -/
def c6Attrs : List JsVal :=
  [.obj [("key", .str "a"), ("value", .obj [("intValue", .str "5")])],
   .obj [("key", .str "b"), ("value", .obj [("boolValue", .bool true)])],
   .obj [("key", .str "a"), ("value", .obj [("stringValue", .str "x")])]]

/-- A raw span carrying only its two timestamps, as nanosecond numbers. -/
def minimalSpanObj (a b : Nat) : JsVal :=
  .obj [("startTimeUnixNano", .num (.int a)), ("endTimeUnixNano", .num (.int b))]

/-
  Store lemmas shared by the capacity and statistics theorems.
-/

theorem addAll_cons (st : TelemetryStorage) (s : TelemetrySpan)
    (l : List TelemetrySpan) :
    st.addAll (s :: l) = (st.addSpan s).addAll l := rfl

theorem addAll_snoc (st : TelemetryStorage) (l : List TelemetrySpan)
    (s : TelemetrySpan) :
    st.addAll (l ++ [s]) = (st.addAll l).addSpan s := by
  simp [TelemetryStorage.addAll, List.foldl_append]

theorem addSpan_maxSpans (st : TelemetryStorage) (s : TelemetrySpan) :
    (st.addSpan s).maxSpans = st.maxSpans := by
  by_cases hc : st.maxSpans < st.spans.length + 1 <;>
    simp [TelemetryStorage.addSpan, hc]

theorem addAll_maxSpans (l : List TelemetrySpan) (st : TelemetryStorage) :
    (st.addAll l).maxSpans = st.maxSpans := by
  induction l generalizing st with
  | nil => rfl
  | cons s t ih => rw [addAll_cons, ih, addSpan_maxSpans]

theorem addSpan_spans (st : TelemetryStorage) (s : TelemetrySpan) :
    (st.addSpan s).spans =
      if st.maxSpans < st.spans.length + 1 then
        jsSliceFromEnd st.maxSpans (st.spans ++ [s])
      else st.spans ++ [s] := by
  by_cases hc : st.maxSpans < st.spans.length + 1 <;>
    simp [TelemetryStorage.addSpan, hc]

/-- Appending any sequence to an empty store of positive capacity m keeps
exactly the last m entries (all of them while fewer have arrived), in their
original relative order. -/
theorem addAll_spans_of_empty (m : Nat) (hm : 1 ≤ m) (l : List TelemetrySpan) :
    (TelemetryStorage.addAll ⟨[], m⟩ l).spans = l.drop (l.length - m) := by
  induction l using List.reverseRecOn with
  | nil => simp [TelemetryStorage.addAll]
  | append_singleton l s ih =>
    rw [addAll_snoc, addSpan_spans, addAll_maxSpans, ih]
    dsimp only
    have hlapp : (l ++ [s]).length = l.length + 1 := by simp
    rw [hlapp]
    by_cases hc : m ≤ l.length
    · have hdlen : (l.drop (l.length - m)).length = m := by
        rw [List.length_drop]; omega
      rw [if_pos (by rw [hdlen]; omega)]
      unfold jsSliceFromEnd
      rw [if_neg (by omega)]
      have hplen : (l.drop (l.length - m) ++ [s]).length = m + 1 := by
        simp [hdlen]
      rw [hplen]
      have h1 : m + 1 - m = 1 := by omega
      rw [h1]
      rw [List.drop_append_of_le_length (by rw [hdlen]; omega : 1 ≤ (l.drop (l.length - m)).length)]
      rw [List.drop_drop]
      rw [List.drop_append_of_le_length (by omega : l.length + 1 - m ≤ l.length)]
      have h2 : l.length - m + 1 = l.length + 1 - m := by omega
      rw [h2]
    · rw [if_neg (by rw [List.length_drop]; omega)]
      have h0 : l.length - m = 0 := by omega
      have h1 : l.length + 1 - m = 0 := by omega
      rw [h0, h1, List.drop_zero, List.drop_zero]

/-- C9: listAll returns the held spans most-recently-appended first, the
exact reverse of insertion order, and after appending S1 then S2 to the
freshly constructed store it returns the pair [S2, S1]. -/
theorem C9_listAll_reverse_insertion :
    (∀ st : TelemetryStorage, st.getAllSpans = st.spans.reverse) ∧
    ∀ s1 s2 : TelemetrySpan,
      (mkTelemetryStorage.addAll [s1, s2]).getAllSpans = [s2, s1] := by
  refine ⟨fun st => rfl, fun s1 s2 => ?_⟩
  rfl

/-- C3 counterexample: with maxSpans 0 the eviction call is slice(-0),
which keeps the whole array, so one append to the empty store leaves one
held span, not zero as the claim states. -/
theorem C3_counterexample_append_keeps_span :
    ((⟨[], 0⟩ : TelemetryStorage).addSpan sampleSpan).spans = [sampleSpan] ∧
    ((⟨[], 0⟩ : TelemetryStorage).addSpan sampleSpan).spans.length ≠ 0 := by
  exact ⟨rfl, by decide⟩

/-- C3 amended: for a Store whose maxSpans is 0, append discards nothing:
slice(-0) returns the whole array, so after appending any sequence of spans
the Store holds all of them in insertion order; the operation is total and
does not fault. -/
theorem C3_amended_maxSpans_zero_keeps_all :
    ∀ l : List TelemetrySpan, (TelemetryStorage.addAll ⟨[], 0⟩ l).spans = l := by
  have key : ∀ (l : List TelemetrySpan) (st : TelemetryStorage),
      st.maxSpans = 0 → (st.addAll l).spans = st.spans ++ l := by
    intro l
    induction l with
    | nil => intro st h; simp [TelemetryStorage.addAll]
    | cons s t ih =>
      intro st h
      rw [addAll_cons, ih _ (by rw [addSpan_maxSpans]; exact h),
        addSpan_spans, h]
      rw [if_pos (by omega)]
      simp [jsSliceFromEnd]
  intro l
  rw [key l ⟨[], 0⟩ rfl]
  rfl

/-- C1: appending maxSpans + k spans (k >= 0) to the Store the constructor
builds (empty, maxSpans 10000) leaves exactly the last maxSpans spans
appended, in their original relative order, with the oldest k discarded;
listing through getSpansByService/getSpansByOperation observes exactly the
order-preserving filters of that suffix. -/
theorem C1_capacity_eviction (k : Nat) (l : List TelemetrySpan)
    (h : l.length = mkTelemetryStorage.maxSpans + k) :
    (mkTelemetryStorage.addAll l).spans = l.drop k ∧
    (mkTelemetryStorage.addAll l).spans.length = mkTelemetryStorage.maxSpans ∧
    (∀ sname, (mkTelemetryStorage.addAll l).getSpansByService sname =
      (l.drop k).filter (fun s => jsStrictEq s.serviceName (.str sname))) ∧
    (∀ oname, (mkTelemetryStorage.addAll l).getSpansByOperation oname =
      (l.drop k).filter (fun s => jsStrictEq s.operationName (.str oname))) := by
  have hmax : mkTelemetryStorage.maxSpans = 10000 := rfl
  rw [hmax] at h
  have hspans : (mkTelemetryStorage.addAll l).spans = l.drop k := by
    have := addAll_spans_of_empty 10000 (by omega) l
    have hk : l.length - 10000 = k := by omega
    rw [hk] at this
    exact this
  refine ⟨hspans, ?_, fun sname => ?_, fun oname => ?_⟩
  · rw [hspans, List.length_drop, hmax]; omega
  · unfold TelemetryStorage.getSpansByService
    rw [hspans]
  · unfold TelemetryStorage.getSpansByOperation
    rw [hspans]

/-- C1 witness: ten thousand appended spans (k = 0) are all retained and the
service filter observes them in order. -/
theorem C1_capacity_eviction_witness :
    (List.replicate 10000 sampleSpan).length = mkTelemetryStorage.maxSpans + 0 ∧
    (mkTelemetryStorage.addAll (List.replicate 10000 sampleSpan)).spans =
      (List.replicate 10000 sampleSpan).drop 0 ∧
    (mkTelemetryStorage.addAll (List.replicate 10000 sampleSpan)).getSpansByService "svc" =
      ((List.replicate 10000 sampleSpan).drop 0).filter
        (fun s => jsStrictEq s.serviceName (.str "svc")) := by
  have h : (List.replicate 10000 sampleSpan).length = mkTelemetryStorage.maxSpans + 0 := by
    rw [List.length_replicate]
    rfl
  exact ⟨h, (C1_capacity_eviction 0 _ h).1, (C1_capacity_eviction 0 _ h).2.2.1 "svc"⟩

/-- C10: every read of the store (getAllSpans, getRecentSpans,
getSpansByService, getSpansByOperation, getTotalSpans, getStats) leaves the
stored span sequence unchanged: the reversing and sorting calls act on
fresh copies, so the state after the call is the receiver state, and the
returned values agree with the pure read functions. -/
theorem C10_reads_leave_state_unchanged :
    ∀ (st : TelemetryStorage) (limit : Nat) (sname oname : String),
      (st.getAllSpansM).2 = st ∧
      (st.getRecentSpansM limit).2 = st ∧
      (st.getSpansByServiceM sname).2 = st ∧
      (st.getSpansByOperationM oname).2 = st ∧
      (st.getTotalSpansM).2 = st ∧
      (st.getStatsM).2 = st ∧
      (st.getAllSpansM).2.spans = st.spans ∧
      (st.getAllSpansM).1 = st.getAllSpans ∧
      (st.getRecentSpansM limit).1 = st.getRecentSpans limit ∧
      (st.getStatsM).1 = st.getStats :=
  fun _ _ _ _ => ⟨rfl, rfl, rfl, rfl, rfl, rfl, rfl, rfl, rfl, rfl⟩

/-- Running error/success tally of the getStats pass, as a function of the
starting pair: the error side counts the spans whose status is literally
ERROR or literally error, the success side counts the rest. -/
theorem statusFold_eq (l : List TelemetrySpan) (a b : Nat) :
    l.foldl
      (fun (p : Nat × Nat) s =>
        if s.status = "ERROR" ∨ s.status = "error" then (p.1 + 1, p.2)
        else (p.1, p.2 + 1))
      (a, b) =
    (a + (l.filter (fun s => decide (s.status = "ERROR" ∨ s.status = "error"))).length,
     b + (l.filter (fun s => decide (¬ (s.status = "ERROR" ∨ s.status = "error")))).length) := by
  induction l generalizing a b with
  | nil => simp
  | cons s t ih =>
    by_cases h : s.status = "ERROR" ∨ s.status = "error"
    · simp only [List.foldl_cons, if_pos h, ih, List.filter_cons]
      simp [h]
      omega
    · simp only [List.foldl_cons, if_neg h, ih, List.filter_cons]
      simp [h]
      omega

/-
  parseInt and division lemmas for the timestamp conversion claim.
-/

theorem digitVal_decDigitChar (d : Nat) (hd : d < 10) :
    digitVal (decDigitChar d) = some d := by
  interval_cases d <;> decide

theorem decDigitChar_not_whitespace (d : Nat) (hd : d < 10) :
    (decDigitChar d).isWhitespace = false := by
  interval_cases d <;> decide

theorem decDigitChar_ne_dash (d : Nat) (hd : d < 10) : decDigitChar d ≠ '-' := by
  interval_cases d <;> decide

theorem decDigitChar_ne_plus (d : Nat) (hd : d < 10) : decDigitChar d ≠ '+' := by
  interval_cases d <;> decide

theorem decDigitChar_ne_x (d : Nat) (hd : d < 10) :
    decDigitChar d ≠ 'x' ∧ decDigitChar d ≠ 'X' := by
  interval_cases d <;> exact ⟨by decide, by decide⟩

theorem stripSign_of_head (c : Char) (t : List Char) (h1 : c ≠ '-')
    (h2 : c ≠ '+') : stripSign (c :: t) = (false, c :: t) := by
  unfold stripSign
  dsimp only
  rw [if_neg h1, if_neg h2]

theorem stripHexPrefix_no_hex (c0 c1 : Char) (t : List Char)
    (h : ¬ (c0 = '0' ∧ (c1 = 'x' ∨ c1 = 'X'))) :
    stripHexPrefix (c0 :: c1 :: t) = (10, c0 :: c1 :: t) := by
  unfold stripHexPrefix
  dsimp only
  rw [if_neg h]

theorem stripHexPrefix_single (c : Char) : stripHexPrefix [c] = (10, [c]) := rfl

theorem takeDigits_map_decDigitChar (ds : List Nat) (h : ∀ d ∈ ds, d < 10) :
    takeDigits digitVal (ds.map decDigitChar) = ds := by
  induction ds with
  | nil => rfl
  | cons d t ih =>
    unfold takeDigits
    rw [List.map_cons]
    show (match digitVal (decDigitChar d) with
      | some x => x :: takeDigits digitVal (t.map decDigitChar)
      | none => []) = d :: t
    rw [digitVal_decDigitChar d (h d (by simp))]
    rw [ih (fun x hx => h x (by simp [hx]))]

theorem dropWhile_digit_head (d : Nat) (hd : d < 10) (t : List Char) :
    List.dropWhile Char.isWhitespace (decDigitChar d :: t) = decDigitChar d :: t := by
  rw [List.dropWhile_cons, decDigitChar_not_whitespace d hd]
  simp

/-- Parsing a nonempty all-digit character list yields its decimal value. -/
theorem parseIntChars_digits (d : Nat) (ds : List Nat) (hd : d < 10)
    (hds : ∀ x ∈ ds, x < 10) :
    parseIntChars ((d :: ds).map decDigitChar) = .int (digitsToNat 10 (d :: ds)) := by
  unfold parseIntChars
  dsimp only
  rw [List.map_cons, dropWhile_digit_head d hd,
    stripSign_of_head _ _ (decDigitChar_ne_dash d hd) (decDigitChar_ne_plus d hd)]
  dsimp only
  cases ds with
  | nil =>
    rw [show (List.map decDigitChar [] : List Char) = [] from rfl,
      stripHexPrefix_single]
    dsimp only
    rw [if_neg (show ¬ ((10 : Nat) = 16) by norm_num)]
    rw [show [decDigitChar d] = ([d] : List Nat).map decDigitChar from rfl]
    rw [takeDigits_map_decDigitChar [d]
      (by intro x hx; rw [List.mem_singleton] at hx; omega)]
    simp
  | cons d2 t2 =>
    rw [List.map_cons]
    rw [stripHexPrefix_no_hex _ _ _
      (by
        intro hcon
        rcases hcon with ⟨h0, hx⟩
        have hnx := decDigitChar_ne_x d2 (hds d2 (by simp))
        rcases hx with hx | hx
        · exact hnx.1 hx
        · exact hnx.2 hx)]
    dsimp only
    rw [if_neg (show ¬ ((10 : Nat) = 16) by norm_num)]
    rw [show decDigitChar d :: decDigitChar d2 :: List.map decDigitChar t2 =
      (d :: d2 :: t2).map decDigitChar from rfl]
    rw [takeDigits_map_decDigitChar (d :: d2 :: t2)
      (by
        intro x hx
        rcases List.mem_cons.mp hx with h1 | h1
        · omega
        · exact hds x h1)]
    simp

/-- Floor division of a nonnegative integer by one million agrees with the
truncating natural division. -/
theorem fdiv_natCast_million (n : Nat) :
    Int.fdiv (n : Int) 1000000 = ((n / 1000000 : Nat) : Int) :=
  (Int.ofNat_fdiv n 1000000).symm

/-- C5: timestamp decoding converts nanoseconds to milliseconds by integer
division by 1,000,000 truncating toward zero, both for numeric wire values
and for decimal-digit strings; the string 1000000000 gives 1000 ms and the
number 2000000 gives 2 ms. -/
theorem C5_nanos_to_millis (d : Nat) (ds : List Nat) (hd : d < 10)
    (hds : ∀ x ∈ ds, x < 10) :
    OTLPProcessor.nanosToMillis (some (.str "1000000000")) = .int 1000 ∧
    OTLPProcessor.nanosToMillis (some (.num (.int 2000000))) = .int 2 ∧
    (∀ n : Nat, OTLPProcessor.nanosToMillis (some (.num (.int n))) =
      .int ((n / 1000000 : Nat) : Int)) ∧
    OTLPProcessor.nanosToMillis
        (some (.str (String.mk ((d :: ds).map decDigitChar)))) =
      .int ((digitsToNat 10 (d :: ds) / 1000000 : Nat) : Int) := by
  refine ⟨by decide, by decide, fun n => ?_, ?_⟩
  · show JsNum.int (Int.fdiv (n : Int) 1000000) = _
    rw [fdiv_natCast_million]
  · show floorDivMillion (parseIntStr (String.mk ((d :: ds).map decDigitChar))) = _
    unfold parseIntStr
    rw [show (String.mk ((d :: ds).map decDigitChar)).data =
      (d :: ds).map decDigitChar from rfl]
    rw [parseIntChars_digits d ds hd hds]
    show JsNum.int (Int.fdiv ((digitsToNat 10 (d :: ds) : Nat) : Int) 1000000) = _
    rw [fdiv_natCast_million]

/-- C5 witness: the digit string 1000000000 built from its digit list
converts to 1000 milliseconds. -/
theorem C5_nanos_to_millis_witness :
    (1 < 10) ∧ (∀ x ∈ ([0, 0, 0, 0, 0, 0, 0, 0, 0] : List Nat), x < 10) ∧
    OTLPProcessor.nanosToMillis
        (some (.str (String.mk ((1 :: [0, 0, 0, 0, 0, 0, 0, 0, 0]).map decDigitChar)))) =
      .int ((digitsToNat 10 (1 :: [0, 0, 0, 0, 0, 0, 0, 0, 0]) / 1000000 : Nat) : Int) :=
  ⟨by decide, by decide,
    (C5_nanos_to_millis 1 [0, 0, 0, 0, 0, 0, 0, 0, 0] (by decide) (by decide)).2.2.2⟩

/-
  Identifier decoding lemmas for the hex-rendering claim.
-/

set_option maxRecDepth 4000 in
theorem byteToHexPad_eq_hexPairSpec :
    ∀ b : Fin 256, byteToHexPad b.val = hexPairSpec b.val := by decide

theorem byteToHexPad_lt (b : Nat) (h : b < 256) :
    byteToHexPad b = hexPairSpec b :=
  byteToHexPad_eq_hexPairSpec ⟨b, h⟩

theorem bytesToHex_bytes_spec (bs : List Nat) (h : bs ≠ [])
    (hb : ∀ b ∈ bs, b < 256) :
    OTLPProcessor.bytesToHex (some (.bytes bs)) = hexConcatSpec bs := by
  unfold OTLPProcessor.bytesToHex hexConcatSpec
  dsimp only
  rw [if_neg (fun hc => h (List.length_eq_zero.mp hc))]
  congr 1
  exact List.map_congr_left (fun b hbm => byteToHexPad_lt b (hb b hbm))

/-- The decoded parentSpanId of the probe span: the wire value goes through
the truthiness test, the truthy case through bytesToHex. -/
theorem decodedParent_eq (pv : Option JsVal) :
    decodedParent pv =
      some (if jsTruthyO pv then some (OTLPProcessor.bytesToHex pv) else none) := by
  cases pv with
  | none => rfl
  | some v => rfl

/-- C4 amended: identifier decoding renders a nonempty byte sequence as
lowercase hex with each byte zero-padded to two digits and concatenated
(bytes 1f 0a give the string 1f0a), passes a string through unchanged, and
yields the empty string for an absent or empty value of traceId/spanId; for
parentSpanId an absent or empty-string wire value yields undefined (no
parent), but an empty byte sequence is an object, hence truthy, and yields
the defined empty string rather than undefined. -/
theorem C4_amended_identifier_decode :
    (∀ s : String, OTLPProcessor.bytesToHex (some (.str s)) = s) ∧
    OTLPProcessor.bytesToHex none = "" ∧
    OTLPProcessor.bytesToHex (some (.bytes [])) = "" ∧
    (∀ bs : List Nat, bs ≠ [] → (∀ b ∈ bs, b < 256) →
      OTLPProcessor.bytesToHex (some (.bytes bs)) = hexConcatSpec bs) ∧
    OTLPProcessor.bytesToHex (some (.bytes [0x1f, 0x0a])) = "1f0a" ∧
    decodedParent none = some none ∧
    decodedParent (some (.str "")) = some none ∧
    decodedParent (some (.bytes [])) = some (some "") ∧
    (∀ s : String, s ≠ "" → decodedParent (some (.str s)) = some (some s)) ∧
    (∀ bs : List Nat, bs ≠ [] → (∀ b ∈ bs, b < 256) →
      decodedParent (some (.bytes bs)) = some (some (hexConcatSpec bs))) := by
  refine ⟨fun s => rfl, rfl, rfl, bytesToHex_bytes_spec, by rfl, rfl, rfl, rfl,
    fun s hs => ?_, fun bs hne hb => ?_⟩
  · rw [decodedParent_eq]
    simp only [jsTruthyO, jsTruthy]
    rw [if_pos (by simp [hs])]
    rfl
  · rw [decodedParent_eq]
    simp only [jsTruthyO, jsTruthy]
    rw [if_pos (by simp)]
    rw [bytesToHex_bytes_spec bs hne hb]

/-- C4 witness: the string abc passes through as a parent id and the byte
pair 1f 0a decodes to its spec-side hex rendering. -/
theorem C4_amended_identifier_decode_witness :
    ("abc" ≠ "") ∧ (([0x1f, 0x0a] : List Nat) ≠ []) ∧
    (∀ b ∈ ([0x1f, 0x0a] : List Nat), b < 256) ∧
    decodedParent (some (.str "abc")) = some (some "abc") ∧
    decodedParent (some (.bytes [0x1f, 0x0a])) =
      some (some (hexConcatSpec [0x1f, 0x0a])) :=
  ⟨by decide, by decide, by decide,
    C4_amended_identifier_decode.2.2.2.2.2.2.2.2.1 "abc" (by decide),
    C4_amended_identifier_decode.2.2.2.2.2.2.2.2.2 [0x1f, 0x0a] (by decide)
      (by decide)⟩

/-- C4 counterexample: an empty byte-sequence parentSpanId decodes to the
defined empty string, not to undefined as the claim states: an empty
Uint8Array is truthy, so the conditional takes the bytesToHex branch. -/
theorem C4_counterexample_empty_bytes_parent :
    decodedParent (some (.bytes [])) = some (some "") ∧
    (some (some "") : Option (Option String)) ≠ some none := by
  exact ⟨rfl, by simp⟩

/-
  Attribute decoding lemmas: the union decode agrees with its
  first-present-field reading, and the indexed-assignment loop produces a
  unique-key mapping in which the last entry bearing a key wins.
-/

theorem jsGet_nonnull (a : JsVal) (h : a ≠ .null) (k : String) :
    jsGet (some a) k = .ok (getField a k) := by
  cases a
  case null => exact absurd rfl h
  all_goals rfl

theorem decodeAttrValue_eq (v : JsVal) :
    OTLPProcessor.decodeAttrValue v = decodeAttrValueSpec v := by
  unfold OTLPProcessor.decodeAttrValue decodeAttrValueSpec
  rcases h1 : getField v "stringValue" with _ | sv
  all_goals rcases h2 : getField v "intValue" with _ | iv
  all_goals rcases h3 : getField v "doubleValue" with _ | dv
  all_goals rcases h4 : getField v "boolValue" with _ | bv
  all_goals simp [h1, h2, h3, h4, List.findSome?_cons]

theorem decodeAttrEntrySpec_key_none (a : JsVal)
    (hk : getField a "key" = none) : decodeAttrEntrySpec a = none := by
  unfold decodeAttrEntrySpec
  rw [hk]

theorem decodeAttrEntrySpec_key_falsy (a : JsVal) (kv : JsVal)
    (hk : getField a "key" = some kv) (htk : ¬ jsTruthy kv = true) :
    decodeAttrEntrySpec a = none := by
  unfold decodeAttrEntrySpec
  rw [hk]
  rcases hv : getField a "value" with _ | v
  · rfl
  · dsimp only
    rw [if_neg (fun hc => htk hc.1)]

theorem decodeAttrEntrySpec_value_none (a : JsVal) (kv : JsVal)
    (hk : getField a "key" = some kv) (hv : getField a "value" = none) :
    decodeAttrEntrySpec a = none := by
  unfold decodeAttrEntrySpec
  rw [hk, hv]

theorem decodeAttrEntrySpec_value_falsy (a : JsVal) (kv v : JsVal)
    (hk : getField a "key" = some kv) (hv : getField a "value" = some v)
    (htv : ¬ jsTruthy v = true) : decodeAttrEntrySpec a = none := by
  unfold decodeAttrEntrySpec
  rw [hk, hv]
  dsimp only
  rw [if_neg (fun hc => htv hc.2)]

theorem decodeAttrEntrySpec_kept (a : JsVal) (kv v : JsVal)
    (hk : getField a "key" = some kv) (hv : getField a "value" = some v)
    (htk : jsTruthy kv = true) (htv : jsTruthy v = true) :
    decodeAttrEntrySpec a = some (jsToString kv, decodeAttrValueSpec v) := by
  unfold decodeAttrEntrySpec
  rw [hk, hv]
  dsimp only
  rw [if_pos ⟨htk, htv⟩]

theorem extractAttrLoop_eq (attrs : List JsVal) :
    ∀ (acc m : List (String × JsVal)),
      OTLPProcessor.extractAttrLoop acc attrs = .ok m →
      m = (attrs.filterMap decodeAttrEntrySpec).foldl
        (fun a e => OTLPProcessor.jsObjSet a e.1 e.2) acc := by
  induction attrs with
  | nil =>
    intro acc m h
    unfold OTLPProcessor.extractAttrLoop at h
    injection h with h
    simp [h]
  | cons a rest ih =>
    intro acc m h
    unfold OTLPProcessor.extractAttrLoop at h
    by_cases hnull : a = JsVal.null
    · subst hnull
      simp [jsGet] at h
    · rw [jsGet_nonnull a hnull] at h
      dsimp only at h
      rcases hk : getField a "key" with _ | kv
      · rw [hk] at h
        dsimp only at h
        rw [List.filterMap_cons, decodeAttrEntrySpec_key_none a hk]
        exact ih acc m h
      · rw [hk] at h
        dsimp only at h
        by_cases htk : jsTruthy kv = true
        · rw [if_pos htk, jsGet_nonnull a hnull] at h
          dsimp only at h
          rcases hv : getField a "value" with _ | v
          · rw [hv] at h
            dsimp only at h
            rw [List.filterMap_cons, decodeAttrEntrySpec_value_none a kv hk hv]
            exact ih acc m h
          · rw [hv] at h
            dsimp only at h
            by_cases htv : jsTruthy v = true
            · rw [if_pos htv] at h
              rw [List.filterMap_cons,
                decodeAttrEntrySpec_kept a kv v hk hv htk htv,
                List.foldl_cons]
              have := ih _ m h
              rw [this, decodeAttrValue_eq]
            · rw [if_neg htv] at h
              rw [List.filterMap_cons,
                decodeAttrEntrySpec_value_falsy a kv v hk hv htv]
              exact ih acc m h
        · rw [if_neg htk] at h
          rw [List.filterMap_cons, decodeAttrEntrySpec_key_falsy a kv hk htk]
          exact ih acc m h

theorem objLookup_jsObjSet (fs : List (String × JsVal)) (k k' : String)
    (v : JsVal) :
    objLookup k' (OTLPProcessor.jsObjSet fs k v) =
      if k = k' then some v else objLookup k' fs := by
  induction fs with
  | nil => simp [OTLPProcessor.jsObjSet, objLookup]
  | cons e rest ih =>
    obtain ⟨k0, v0⟩ := e
    by_cases h0 : k0 = k
    · subst h0
      by_cases h1 : k0 = k'
      · simp [OTLPProcessor.jsObjSet, objLookup, h1]
      · simp [OTLPProcessor.jsObjSet, objLookup, h1]
    · by_cases h1 : k0 = k'
      · subst h1
        have h2 : ¬ (k = k0) := fun hc => h0 hc.symm
        simp [OTLPProcessor.jsObjSet, objLookup, h0, h2]
      · simp [OTLPProcessor.jsObjSet, objLookup, h0, h1, ih]

theorem keys_jsObjSet (fs : List (String × JsVal)) (k : String) (v : JsVal) :
    (OTLPProcessor.jsObjSet fs k v).map Prod.fst =
      if k ∈ fs.map Prod.fst then fs.map Prod.fst
      else fs.map Prod.fst ++ [k] := by
  induction fs with
  | nil => simp [OTLPProcessor.jsObjSet]
  | cons e rest ih =>
    obtain ⟨k0, v0⟩ := e
    by_cases h0 : k0 = k
    · subst h0
      rw [show OTLPProcessor.jsObjSet ((k0, v0) :: rest) k0 v =
        (k0, v) :: rest from by simp [OTLPProcessor.jsObjSet]]
      rw [List.map_cons, List.map_cons,
        if_pos (List.mem_cons_self k0 (rest.map Prod.fst))]
    · rw [show OTLPProcessor.jsObjSet ((k0, v0) :: rest) k v =
        (k0, v0) :: OTLPProcessor.jsObjSet rest k v from by
          simp only [OTLPProcessor.jsObjSet]; rw [if_neg h0]]
      rw [List.map_cons, List.map_cons, ih]
      by_cases h1 : k ∈ rest.map Prod.fst
      · rw [if_pos h1, if_pos (List.mem_cons_of_mem k0 h1)]
      · rw [if_neg h1, if_neg (by
          intro hc
          rcases List.mem_cons.mp hc with hc | hc
          · exact h0 hc.symm
          · exact h1 hc)]
        simp

theorem nodup_keys_jsObjSet (fs : List (String × JsVal)) (k : String)
    (v : JsVal) (h : (fs.map Prod.fst).Nodup) :
    ((OTLPProcessor.jsObjSet fs k v).map Prod.fst).Nodup := by
  rw [keys_jsObjSet]
  by_cases h1 : k ∈ fs.map Prod.fst
  · rw [if_pos h1]; exact h
  · rw [if_neg h1]
    simp [List.nodup_append, h, h1]

theorem nodup_keys_foldl (es : List (String × JsVal)) :
    ∀ acc : List (String × JsVal), (acc.map Prod.fst).Nodup →
      ((es.foldl (fun a e => OTLPProcessor.jsObjSet a e.1 e.2) acc).map
        Prod.fst).Nodup := by
  induction es with
  | nil => intro acc h; simpa using h
  | cons e rest ih =>
    intro acc h
    rw [List.foldl_cons]
    exact ih _ (nodup_keys_jsObjSet acc e.1 e.2 h)

theorem objLookup_foldl_jsObjSet (es : List (String × JsVal)) (k : String) :
    ∀ acc : List (String × JsVal),
      objLookup k (es.foldl (fun a e => OTLPProcessor.jsObjSet a e.1 e.2) acc) =
        (match (es.filter (fun e => e.1 = k)).getLast? with
          | some e => some e.2
          | none => objLookup k acc) := by
  induction es using List.reverseRecOn with
  | nil => intro acc; simp
  | append_singleton es e ihe =>
    intro acc
    rw [List.foldl_append, List.foldl_cons, List.foldl_nil,
      objLookup_jsObjSet, List.filter_append]
    by_cases he : e.1 = k
    · rw [if_pos he]
      simp [List.filter_cons, he, List.getLast?_concat]
    · rw [if_neg he]
      simp [List.filter_cons, he, ihe]

/-- C6: attribute decoding agrees with the reference definition: the union
value is read from exactly the first present field in the order stringValue,
intValue (through parseInt, with NaN on parse failure), doubleValue,
boolValue, falling back to the value object's JSON text; entries with a
falsy (absent) key or value are skipped; and the produced mapping has unique
keys, with the last entry bearing a repeated key winning. -/
theorem C6_attribute_decode (attrs : List JsVal) (m : List (String × JsVal))
    (h : OTLPProcessor.extractAttributes (some (.arr attrs)) = .ok m) :
    (∀ v : JsVal, OTLPProcessor.decodeAttrValue v = decodeAttrValueSpec v) ∧
    (m.map Prod.fst).Nodup ∧
    (∀ k, objLookup k m = lastWriteSpec attrs k) := by
  have hloop : OTLPProcessor.extractAttrLoop [] attrs = .ok m := by
    unfold OTLPProcessor.extractAttributes at h
    rw [if_neg (by simp [jsTruthyO, jsTruthy])] at h
    rw [show jsIterateO (some (.arr attrs)) = .ok attrs from rfl] at h
    exact h
  have hm := extractAttrLoop_eq attrs [] m hloop
  subst hm
  refine ⟨decodeAttrValue_eq, nodup_keys_foldl _ [] (by simp), fun k => ?_⟩
  rw [objLookup_foldl_jsObjSet]
  unfold lastWriteSpec
  cases ((attrs.filterMap decodeAttrEntrySpec).filter
      (fun e => e.1 = k)).getLast? with
  | none => rfl
  | some e => rfl

/-- C6 witness: the attribute list with keys a (intValue 5), b
(boolValue true) and a again (stringValue x) decodes with unique keys and
the final lookup of a equal to the last write. -/
theorem C6_attribute_decode_witness :
    OTLPProcessor.extractAttributes (some (.arr c6Attrs)) =
      .ok [("a", JsVal.str "x"), ("b", JsVal.bool true)] ∧
    (([("a", JsVal.str "x"), ("b", JsVal.bool true)]).map Prod.fst).Nodup ∧
    objLookup "a" [("a", JsVal.str "x"), ("b", JsVal.bool true)] =
      lastWriteSpec c6Attrs "a" :=
  ⟨rfl, (C6_attribute_decode c6Attrs _ rfl).2.1,
    (C6_attribute_decode c6Attrs _ rfl).2.2 "a"⟩

/-
  Service-name resolution lemmas.
-/

theorem serviceNameSpec_cons_neg (a : JsVal) (rest : List JsVal)
    (hna : isServiceNameAttr a = false) :
    serviceNameSpec (a :: rest) = serviceNameSpec rest := by
  unfold serviceNameSpec
  rw [List.find?_cons_of_neg _ (by simp [hna])]

theorem serviceNameSpec_cons_pos (a : JsVal) (rest : List JsVal)
    (hpa : isServiceNameAttr a = true) :
    serviceNameSpec (a :: rest) =
      jsOr
        (match getField a "value" with
          | none => none
          | some JsVal.null => none
          | some v => getField v "stringValue")
        (.str "unknown-service") := by
  unfold serviceNameSpec
  rw [List.find?_cons_of_pos _ (by simp [hpa])]

theorem findServiceName_eq (attrs : List JsVal) (h : ∀ a ∈ attrs, a ≠ .null) :
    OTLPProcessor.findServiceName attrs = .ok (serviceNameSpec attrs) := by
  induction attrs with
  | nil => rfl
  | cons a rest ih =>
    have ha : a ≠ .null := h a (by simp)
    have hrest : ∀ x ∈ rest, x ≠ .null :=
      fun x hx => h x (List.mem_cons_of_mem a hx)
    unfold OTLPProcessor.findServiceName
    rw [jsGet_nonnull a ha]
    dsimp only
    rcases hk : getField a "key" with _ | kv
    · dsimp only
      rw [serviceNameSpec_cons_neg a rest (by simp [isServiceNameAttr, hk])]
      exact ih hrest
    · cases kv
      case str k =>
        dsimp only
        by_cases hks : k = "service.name"
        · rw [if_pos hks, jsGet_nonnull a ha]
          rw [serviceNameSpec_cons_pos a rest
            (by simp [isServiceNameAttr, hk, hks])]
        · rw [if_neg hks]
          rw [serviceNameSpec_cons_neg a rest
            (by simp [isServiceNameAttr, hk, hks])]
          exact ih hrest
      all_goals
        dsimp only
        rw [serviceNameSpec_cons_neg a rest (by simp [isServiceNameAttr, hk])]
        exact ih hrest

theorem extractServiceName_attrList (attrs : List JsVal)
    (h : ∀ a ∈ attrs, a ≠ .null) :
    OTLPProcessor.extractServiceName (some (.obj [("attributes", .arr attrs)])) =
      .ok (serviceNameSpec attrs) := by
  unfold OTLPProcessor.extractServiceName
  rw [if_neg (by simp [jsTruthyO, jsTruthy])]
  rw [show jsGet (some (.obj [("attributes", .arr attrs)])) "attributes" =
    .ok (some (.arr attrs)) from rfl]
  dsimp only
  rw [if_neg (by simp [jsTruthyO, jsTruthy])]
  rw [show jsIterateO (some (.arr attrs)) = .ok attrs from rfl]
  dsimp only
  exact findServiceName_eq attrs h

/-- C8 counterexample: a service.name attribute whose stringValue is the
empty string resolves to unknown-service, because the empty string is falsy
in the `stringValue \|\| default` expression; the claim states any string
value, including the empty string, is taken as-is. -/
theorem C8_counterexample_empty_string :
    OTLPProcessor.extractServiceName (some c8Resource) =
      .ok (.str "unknown-service") ∧
    JsVal.str "unknown-service" ≠ JsVal.str "" := by
  refine ⟨rfl, fun hc => ?_⟩
  injection hc with hs
  simp at hs

/-- C8 amended: serviceName is resolved by scanning the group's resource
attributes for the first entry whose key is literally service.name and
taking its value's stringValue through the truthiness test: a nonempty
string is taken as-is, while an absent resource, an absent attributes list,
a missing service.name key, or a falsy stringValue (in particular the empty
string, and any absent value) all yield unknown-service. -/
theorem C8_amended_service_name (attrs : List JsVal)
    (h : ∀ a ∈ attrs, a ≠ .null) :
    OTLPProcessor.extractServiceName (some (.obj [("attributes", .arr attrs)])) =
      .ok (serviceNameSpec attrs) ∧
    OTLPProcessor.extractServiceName none = .ok (.str "unknown-service") ∧
    OTLPProcessor.extractServiceName (some .null) = .ok (.str "unknown-service") ∧
    (∀ fs : List (String × JsVal), objLookup "attributes" fs = none →
      OTLPProcessor.extractServiceName (some (.obj fs)) =
        .ok (.str "unknown-service")) ∧
    (∀ s : String, s ≠ "" →
      jsOr (some (.str s)) (.str "unknown-service") = .str s) ∧
    jsOr (some (.str "")) (.str "unknown-service") = .str "unknown-service" ∧
    jsOr none (.str "unknown-service") = .str "unknown-service" := by
  refine ⟨extractServiceName_attrList attrs h, rfl, rfl, fun fs hfs => ?_,
    fun s hs => ?_, rfl, rfl⟩
  · unfold OTLPProcessor.extractServiceName
    rw [if_neg (by simp [jsTruthyO, jsTruthy])]
    rw [show jsGet (some (.obj fs)) "attributes" =
      .ok (objLookup "attributes" fs) from rfl]
    rw [hfs]
    dsimp only
    rw [if_pos (by simp [jsTruthyO])]
  · unfold jsOr
    dsimp only
    rw [if_pos (by simp [jsTruthy, hs])]

/-- C8 witness: a service.name attribute carrying the nonempty string
payments resolves to that string. -/
theorem C8_amended_service_name_witness :
    (∀ a ∈ [JsVal.obj [("key", JsVal.str "service.name"),
        ("value", JsVal.obj [("stringValue", JsVal.str "payments")])]],
      a ≠ JsVal.null) ∧
    OTLPProcessor.extractServiceName (some (.obj [("attributes",
        .arr [JsVal.obj [("key", JsVal.str "service.name"),
          ("value", JsVal.obj [("stringValue", JsVal.str "payments")])]])])) =
      .ok (serviceNameSpec [JsVal.obj [("key", JsVal.str "service.name"),
        ("value", JsVal.obj [("stringValue", JsVal.str "payments")])]]) ∧
    ("payments" ≠ "") ∧
    jsOr (some (.str "payments")) (.str "unknown-service") = .str "payments" := by
  have hn : ∀ a ∈ [JsVal.obj [("key", JsVal.str "service.name"),
      ("value", JsVal.obj [("stringValue", JsVal.str "payments")])]],
      a ≠ JsVal.null := by
    intro a ha
    rw [List.mem_singleton] at ha
    subst ha
    intro hc
    cases hc
  exact ⟨hn, (C8_amended_service_name _ hn).1, by decide,
    (C8_amended_service_name _ hn).2.2.2.2.1 "payments" (by decide)⟩

/-
  Decoder traversal lemmas for the missing-structure claim.
-/

theorem nanosToMillis_natNum (n : Nat) :
    OTLPProcessor.nanosToMillis (some (.num (.int (n : Int)))) =
      .int ((n / 1000000 : Nat) : Int) := by
  show JsNum.int (Int.fdiv (n : Int) 1000000) = _
  rw [fdiv_natCast_million]

theorem convertSpan_minimal (sn : JsVal) (a b : Nat)
    (h : a / 1000000 ≤ OTLPProcessor.maxDateMillis) :
    OTLPProcessor.convertSpan (minimalSpanObj a b) sn =
      .ok { traceId := "", spanId := "", parentSpanId := none,
            operationName := .str "unknown-operation",
            startTime := .int ((a / 1000000 : Nat) : Int),
            endTime := .int ((b / 1000000 : Nat) : Int),
            duration := .int (((b / 1000000 : Nat) : Int) -
              ((a / 1000000 : Nat) : Int)),
            status := "OK", attributes := [], events := [],
            serviceName := sn,
            timestamp := isoOfMillis ((a / 1000000 : Nat) : Int) } := by
  unfold OTLPProcessor.convertSpan
  rw [show jsGet (some (minimalSpanObj a b)) "startTimeUnixNano" =
    .ok (some (.num (.int a))) from rfl]
  dsimp only
  rw [show jsGet (some (minimalSpanObj a b)) "endTimeUnixNano" =
    .ok (some (.num (.int b))) from rfl]
  dsimp only
  rw [show jsGet (some (minimalSpanObj a b)) "traceId" = .ok none from rfl]
  dsimp only
  rw [show jsGet (some (minimalSpanObj a b)) "spanId" = .ok none from rfl]
  dsimp only
  rw [show jsGet (some (minimalSpanObj a b)) "parentSpanId" = .ok none from rfl]
  dsimp only
  rw [show jsGet (some (minimalSpanObj a b)) "name" = .ok none from rfl]
  dsimp only
  rw [show jsGet (some (minimalSpanObj a b)) "status" = .ok none from rfl]
  dsimp only
  rw [show jsGet (some (minimalSpanObj a b)) "attributes" = .ok none from rfl]
  dsimp only
  rw [show OTLPProcessor.extractAttributes none = .ok [] from rfl]
  dsimp only
  rw [show jsGet (some (minimalSpanObj a b)) "events" = .ok none from rfl]
  dsimp only
  rw [show OTLPProcessor.extractEvents none = .ok [] from rfl]
  dsimp only
  rw [nanosToMillis_natNum a, nanosToMillis_natNum b]
  unfold OTLPProcessor.dateToISO
  dsimp only
  rw [if_neg (by
    rw [Int.natAbs_ofNat]
    omega)]
  rfl

/-- Any payload whose resourceSpans read yields undefined is a warned
no-op, whether the payload is truthy or falsy: the truthiness guard and the
resourceSpans guard both route to the early return. -/
theorem processTraces_no_resourceSpans (data : JsVal)
    (h : getField data "resourceSpans" = none) :
    OTLPProcessor.processTraces data = ([], none) := by
  unfold OTLPProcessor.processTraces
  by_cases ht : jsTruthy data = true
  · rw [if_neg (by simp [ht]), h, if_pos (by simp [jsTruthyO])]
  · rw [if_pos (by simp [ht])]

/-- Property reads on non-objects yield undefined: a string, number,
boolean, array or byte array has no resourceSpans property. -/
theorem getField_non_obj (data : JsVal)
    (h : ∀ fs : List (String × JsVal), data ≠ JsVal.obj fs) (k : String) :
    getField data k = none := by
  cases data
  case obj fs => exact absurd rfl (h fs)
  all_goals rfl

/-- C2 counterexample: a structurally well-formed payload whose single raw
span is the empty object makes processTraces throw: the absent timestamps
become NaN, and new Date(NaN).toISOString() raises a RangeError which the
method rethrows, contradicting the claim that a span lacking its optional
fields completes without an exception. -/
theorem C2_counterexample_missing_timestamps :
    OTLPProcessor.processTraces emptySpanPayload =
      ([], some "RangeError: Invalid time value") ∧
    (OTLPProcessor.processTraces emptySpanPayload).2 ≠ none := by
  refine ⟨rfl, ?_⟩
  rw [show (OTLPProcessor.processTraces emptySpanPayload).2 =
    some "RangeError: Invalid time value" from rfl]
  simp

/-- C2 amended: decoding never throws when optional CONTAINER structure is
missing - a falsy payload, any non-object payload (truthy or not: a string,
number, boolean, array or byte array has no resourceSpans property), a
payload object without resourceSpans, a group without scopeSpans and a
scope group without spans all complete without an exception, producing zero
spans for the missing parts; a span object lacking resource, attributes,
status and events also decodes without an exception provided its start
timestamp is present and in range - but a span lacking its timestamps has
NaN startTime, on which the Date conversion throws a RangeError that
processTraces propagates. -/
theorem C2_amended_missing_structure :
    (∀ data : JsVal, jsTruthy data = false →
      OTLPProcessor.processTraces data = ([], none)) ∧
    (∀ data : JsVal, (∀ fs : List (String × JsVal), data ≠ JsVal.obj fs) →
      OTLPProcessor.processTraces data = ([], none)) ∧
    (∀ fs : List (String × JsVal), objLookup "resourceSpans" fs = none →
      OTLPProcessor.processTraces (.obj fs) = ([], none)) ∧
    (∀ (g : List (String × JsVal)) (rest : List JsVal) (sn : JsVal),
      OTLPProcessor.extractServiceName (objLookup "resource" g) = .ok sn →
      objLookup "scopeSpans" g = none →
      OTLPProcessor.processGroupList (.obj g :: rest) =
        OTLPProcessor.processGroupList rest) ∧
    (∀ (sc : List (String × JsVal)) (rest : List JsVal) (sn : JsVal),
      objLookup "spans" sc = none →
      OTLPProcessor.processScopeList sn (.obj sc :: rest) =
        OTLPProcessor.processScopeList sn rest) ∧
    (∀ (sn : JsVal) (a b : Nat), a / 1000000 ≤ OTLPProcessor.maxDateMillis →
      OTLPProcessor.convertSpan (minimalSpanObj a b) sn =
        .ok { traceId := "", spanId := "", parentSpanId := none,
              operationName := .str "unknown-operation",
              startTime := .int ((a / 1000000 : Nat) : Int),
              endTime := .int ((b / 1000000 : Nat) : Int),
              duration := .int (((b / 1000000 : Nat) : Int) -
                ((a / 1000000 : Nat) : Int)),
              status := "OK", attributes := [], events := [],
              serviceName := sn,
              timestamp := isoOfMillis ((a / 1000000 : Nat) : Int) }) ∧
    (∀ sn : JsVal, OTLPProcessor.convertSpan (.obj []) sn =
      .error "RangeError: Invalid time value") ∧
    OTLPProcessor.processTraces emptySpanPayload =
      ([], some "RangeError: Invalid time value") := by
  refine ⟨fun data h => ?_, fun data h => ?_, fun fs h => ?_,
    fun g rest sn hsvc hscope => ?_,
    fun sc rest sn hspans => ?_, convertSpan_minimal, fun sn => rfl, rfl⟩
  · unfold OTLPProcessor.processTraces
    rw [if_pos (by simp [h])]
  · exact processTraces_no_resourceSpans data (getField_non_obj data h _)
  · exact processTraces_no_resourceSpans (.obj fs)
      (by rw [show getField (.obj fs) "resourceSpans" =
        objLookup "resourceSpans" fs from rfl, h])
  · simp only [OTLPProcessor.processGroupList]
    rw [show jsGet (some (.obj g)) "resource" =
      .ok (objLookup "resource" g) from rfl]
    dsimp only
    rw [hsvc]
    dsimp only
    rw [show jsGet (some (.obj g)) "scopeSpans" =
      .ok (objLookup "scopeSpans" g) from rfl, hscope]
    dsimp only
    rw [if_pos (by simp [jsTruthyO])]
  · simp only [OTLPProcessor.processScopeList]
    rw [show jsGet (some (.obj sc)) "spans" =
      .ok (objLookup "spans" sc) from rfl, hspans]
    dsimp only
    rw [if_pos (by simp [jsTruthyO])]

/-- C2 witness: each missing-structure case at a concrete input: a null
payload, three truthy non-object payloads (a nonempty string, a nonzero
number, a nonempty array), an empty payload object, a group and a scope
group that are empty objects, a span with zero timestamps, and the empty
span object that throws. -/
theorem C2_amended_missing_structure_witness :
    (jsTruthy JsVal.null = false) ∧
    OTLPProcessor.processTraces JsVal.null = ([], none) ∧
    (∀ fs : List (String × JsVal), JsVal.str "hello" ≠ JsVal.obj fs) ∧
    OTLPProcessor.processTraces (.str "hello") = ([], none) ∧
    (∀ fs : List (String × JsVal), JsVal.num (.int 5) ≠ JsVal.obj fs) ∧
    OTLPProcessor.processTraces (.num (.int 5)) = ([], none) ∧
    (∀ fs : List (String × JsVal),
      JsVal.arr [JsVal.num (.int 1)] ≠ JsVal.obj fs) ∧
    OTLPProcessor.processTraces (.arr [JsVal.num (.int 1)]) = ([], none) ∧
    (objLookup "resourceSpans" [] = none) ∧
    OTLPProcessor.processTraces (.obj []) = ([], none) ∧
    (OTLPProcessor.extractServiceName (objLookup "resource" []) =
      .ok (.str "unknown-service")) ∧
    (objLookup "scopeSpans" [] = none) ∧
    OTLPProcessor.processGroupList [.obj []] =
      OTLPProcessor.processGroupList [] ∧
    (objLookup "spans" [] = none) ∧
    OTLPProcessor.processScopeList (.str "svc") [.obj []] =
      OTLPProcessor.processScopeList (.str "svc") [] ∧
    ((0 : Nat) / 1000000 ≤ OTLPProcessor.maxDateMillis) ∧
    OTLPProcessor.convertSpan (minimalSpanObj 0 0) (.str "svc") =
      .ok { traceId := "", spanId := "", parentSpanId := none,
            operationName := .str "unknown-operation",
            startTime := .int (((0 : Nat) / 1000000 : Nat) : Int),
            endTime := .int (((0 : Nat) / 1000000 : Nat) : Int),
            duration := .int ((((0 : Nat) / 1000000 : Nat) : Int) -
              (((0 : Nat) / 1000000 : Nat) : Int)),
            status := "OK", attributes := [], events := [],
            serviceName := .str "svc",
            timestamp := isoOfMillis (((0 : Nat) / 1000000 : Nat) : Int) } ∧
    OTLPProcessor.convertSpan (.obj []) (.str "svc") =
      .error "RangeError: Invalid time value" :=
  ⟨rfl, C2_amended_missing_structure.1 JsVal.null rfl,
    fun fs h => JsVal.noConfusion h,
    C2_amended_missing_structure.2.1 (.str "hello")
      (fun fs h => JsVal.noConfusion h),
    fun fs h => JsVal.noConfusion h,
    C2_amended_missing_structure.2.1 (.num (.int 5))
      (fun fs h => JsVal.noConfusion h),
    fun fs h => JsVal.noConfusion h,
    C2_amended_missing_structure.2.1 (.arr [JsVal.num (.int 1)])
      (fun fs h => JsVal.noConfusion h),
    rfl, C2_amended_missing_structure.2.2.1 [] rfl,
    rfl, rfl,
    C2_amended_missing_structure.2.2.2.1 [] [] (.str "unknown-service")
      rfl rfl,
    rfl,
    C2_amended_missing_structure.2.2.2.2.1 [] [] (.str "svc") rfl,
    by decide,
    C2_amended_missing_structure.2.2.2.2.2.1 (.str "svc") 0 0 (by decide),
    C2_amended_missing_structure.2.2.2.2.2.2.1 (.str "svc")⟩

/-- C7 counterexample: a span whose status is the mixed-case string Error is
not counted as an error by getStats, although a case-insensitive match on
ERROR would count it. -/
theorem C7_counterexample_mixed_case :
    (mixedCaseStorage.getStats).errorCount = 0 ∧
    (mixedCaseStorage.spans.filter (fun s => matchesErrorCI s.status)).length = 1 := by
  constructor <;> rfl

/-- C7 amended: getStats counts a span in errorCount exactly when its status
is the literal string ERROR or the literal string error (only these two
spellings; other casings count as success), and successCount counts all
other spans; on the statuses OK, ERROR, error, OK it reports errorCount 2
and successCount 2. -/
theorem C7_amended_status_counts :
    (∀ st : TelemetryStorage,
      (st.getStats).errorCount =
        (st.spans.filter
          (fun s => decide (s.status = "ERROR" ∨ s.status = "error"))).length ∧
      (st.getStats).successCount =
        (st.spans.filter
          (fun s => decide (¬ (s.status = "ERROR" ∨ s.status = "error")))).length) ∧
    (statusExampleStorage.getStats).errorCount = 2 ∧
    (statusExampleStorage.getStats).successCount = 2 := by
  refine ⟨fun st => ?_, by rfl, by rfl⟩
  unfold TelemetryStorage.getStats
  by_cases h : st.spans.isEmpty
  · rw [List.isEmpty_iff] at h
    simp [h]
  · rw [List.isEmpty_iff] at h
    rw [if_neg (by simp [h])]
    refine ⟨?_, ?_⟩ <;> (dsimp only; rw [statusFold_eq]; simp)

end RNOtel
